import Mathlib

/-!
Shallow embedding of `src/fs/feature/git.rs` of the eza repository: the
per-invocation Git status cache.

Modelling choices:
- A filesystem path is its list of components (`GitPath`).  All paths in
  this development are absolute and already canonical, so `reorient`
  (which joins onto the current directory and canonicalizes, falling back
  to the input on failure) is the identity on them.
- The `git2::Status` bitflag set is a record of booleans, one per flag
  used by the source; `|` is fieldwise or, `==` is record equality.
- The external git2 capabilities are modelled by their results: repository
  discovery is an explicit function parameter `GitFlags -> GitPath ->
  Option DiscResult`, and each `GitRepo` carries the result its handle
  would produce for `repo.statuses(None)` (`scan`) and `repo.submodules()`
  (`submoduleScan`).
- The interior-mutability caches (`statuses`, `relative_submodule_paths`)
  become explicit state passing: `get_status` and `has_in_submodule`
  return the updated `GitRepo` along with their answer.
- Fallible calls return `Except`.
-/

/-- A filesystem path, as its list of components. Absolute and canonical. -/
abbrev GitPath := List String

/-- The two-axis user-facing status enum `f::GitStatus`.
Modelled from the spec: the `fs::fields` module is not under `src/`;
spec section 3 lists the variants. -/
inductive GitStatus where
  | New
  | Modified
  | Deleted
  | Renamed
  | TypeChange
  | Ignored
  | Conflicted
  | NotModified
deriving DecidableEq

/-- The pair `f::Git` of staged and unstaged statuses.
Modelled from the spec: the `fs::fields` module is not under `src/`. -/
structure Git where
  staged : GitStatus
  unstaged : GitStatus
deriving DecidableEq

/-- Modelled from the spec: the `Default` value of `f::Git` (the
"no status" default), NotModified on both axes (spec sections 7 and 8). -/
def Git.default : Git := ⟨GitStatus.NotModified, GitStatus.NotModified⟩

/-- The `git2::Status` bitflag set, one boolean per flag the source uses. -/
structure Status where
  wt_new : Bool
  wt_modified : Bool
  wt_deleted : Bool
  wt_renamed : Bool
  wt_typechange : Bool
  index_new : Bool
  index_modified : Bool
  index_deleted : Bool
  index_renamed : Bool
  index_typechange : Bool
  ignored : Bool
  conflicted : Bool
deriving DecidableEq

/-- Bitflag union, `a | b` in the source. -/
def Status.union (a b : Status) : Status :=
  ⟨a.wt_new || b.wt_new, a.wt_modified || b.wt_modified,
   a.wt_deleted || b.wt_deleted, a.wt_renamed || b.wt_renamed,
   a.wt_typechange || b.wt_typechange, a.index_new || b.index_new,
   a.index_modified || b.index_modified, a.index_deleted || b.index_deleted,
   a.index_renamed || b.index_renamed, a.index_typechange || b.index_typechange,
   a.ignored || b.ignored, a.conflicted || b.conflicted⟩

/-- `git2::Status::empty()`. -/
def Status.empty : Status :=
  ⟨false, false, false, false, false, false, false, false, false, false, false, false⟩

/-- The singleton flag set `git2::Status::IGNORED`. -/
def Status.IGNORED : Status := { Status.empty with ignored := true }

/-- The singleton flag set `git2::Status::WT_MODIFIED`. -/
def Status.WT_MODIFIED : Status := { Status.empty with wt_modified := true }

/-- The singleton flag set `git2::Status::WT_NEW`. -/
def Status.WT_NEW : Status := { Status.empty with wt_new := true }

/-- The singleton flag set `git2::Status::CONFLICTED`. -/
def Status.CONFLICTED : Status := { Status.empty with conflicted := true }

/-- `working_tree_status`: reduce a combined flag set on the unstaged axis,
first match wins in the fixed order of the source. -/
def working_tree_status (status : Status) : GitStatus :=
  if status.wt_new then GitStatus.New
  else if status.wt_modified then GitStatus.Modified
  else if status.wt_deleted then GitStatus.Deleted
  else if status.wt_renamed then GitStatus.Renamed
  else if status.wt_typechange then GitStatus.TypeChange
  else if status.ignored then GitStatus.Ignored
  else if status.conflicted then GitStatus.Conflicted
  else GitStatus.NotModified

/-- `index_status`: reduce a combined flag set on the staged axis,
first match wins in the fixed order of the source. -/
def index_status (status : Status) : GitStatus :=
  if status.index_new then GitStatus.New
  else if status.index_modified then GitStatus.Modified
  else if status.index_deleted then GitStatus.Deleted
  else if status.index_renamed then GitStatus.Renamed
  else if status.index_typechange then GitStatus.TypeChange
  else GitStatus.NotModified

/-- `reorient`: on absolute, already canonical paths, joining onto the
current directory and canonicalizing (with fallback to the input on
failure) is the identity, so the embedding takes it as such. -/
def reorient (path : GitPath) : GitPath := path

/-- Container of Git statuses for all files in one repository
(`GitStatuses` in the source). -/
structure GitStatuses where
  statuses : List (GitPath × Status)
deriving DecidableEq

/-- The filter predicate inside `GitStatuses::file_status`: an entry whose
flag set is exactly IGNORED matches when it is an ancestor of the query
path (`path.starts_with(&p.0)`); any other entry matches by exact
equality (`p.0 == path`). -/
def fileMatches (path : GitPath) (e : GitPath × Status) : Bool :=
  if e.2 = Status.IGNORED then decide (e.1 <+: path) else decide (e.1 = path)

/-- The filter predicate inside `GitStatuses::dir_status`: an entry whose
flag set is exactly IGNORED matches when it is an ancestor of the query
path; any other entry matches when the query path is a prefix of the
entry (`p.0.starts_with(&path)`). -/
def dirMatches (path : GitPath) (e : GitPath × Status) : Bool :=
  if e.2 = Status.IGNORED then decide (e.1 <+: path) else decide (path <+: e.1)

/-- `GitStatuses::file_status`. -/
def GitStatuses.file_status (g : GitStatuses) (file : GitPath) : Git :=
  let path := reorient file
  let s := (g.statuses.filter (fileMatches path)).foldl
    (fun a b => a.union b.2) Status.empty
  ⟨index_status s, working_tree_status s⟩

/-- `GitStatuses::dir_status`. -/
def GitStatuses.dir_status (g : GitStatuses) (dir : GitPath) : Git :=
  let path := reorient dir
  let s := (g.statuses.filter (dirMatches path)).foldl
    (fun a b => a.union b.2) Status.empty
  ⟨index_status s, working_tree_status s⟩

/-- `GitStatuses::status`: dispatch on the prefix-lookup flag. -/
def GitStatuses.status (g : GitStatuses) (index : GitPath) (prefix_lookup : Bool) : Git :=
  if prefix_lookup then g.dir_status index else g.file_status index

/-- `repo_to_statuses`: build the status index from the result of the
repository scan. On success every scanned entry (a workdir-relative path
and its flags) is joined onto the workdir, and the synthetic ignored
entry for `workdir/.git` is appended; on failure the error is logged and
the index is left empty. -/
def repo_to_statuses (scan : Except Unit (List (GitPath × Status))) (workdir : GitPath) :
    GitStatuses :=
  match scan with
  | Except.ok es =>
      ⟨es.map (fun e => (workdir ++ e.1, e.2)) ++ [(workdir ++ [".git"], Status.IGNORED)]⟩
  | Except.error _ => ⟨[]⟩

/-- `strip_prefix` on paths (Rust `Path::strip_prefix`): when `base` is a
component-wise prefix of `path`, return the remainder, else fail.
Arguments: the path, then the base. -/
def stripPfx : GitPath → GitPath → Option GitPath
  | p, [] => some p
  | [], _ :: _ => none
  | a :: p, b :: q => if b = a then stripPfx p q else none

deriving instance DecidableEq for Except

/-- The result of a successful repository discovery, bundling the working
directory with what the opened git2 handle would answer for the status
scan (`repo.statuses(None)`) and the submodule enumeration
(`repo.submodules()`).  A failed open, and a repository without a working
directory (bare), are both the `none` case of the discovery function. -/
structure DiscResult where
  workdir : GitPath
  scan : Except Unit (List (GitPath × Status))
  submodules : Except Unit (List GitPath)
deriving DecidableEq

/-- The two flag combinations the source passes to discovery:
`NO_SEARCH | NO_DOTGIT` for the GIT_DIR override, `FROM_ENV` for input
paths. -/
inductive GitFlags where
  | noSearchNoDotgit
  | fromEnv
deriving DecidableEq

/-- `GitRepo`: one tracked repository.  The git2 handle is replaced by the
results its calls would produce (`scan`, `submoduleScan`); the two
lazily-populated caches are explicit `Option` fields. -/
structure GitRepo where
  scan : Except Unit (List (GitPath × Status))
  submoduleScan : Except Unit (List GitPath)
  statusCache : Option GitStatuses
  submoduleCache : Option (Except Unit (List GitPath))
  workdir : GitPath
  original_path : GitPath
  extra_paths : List GitPath
deriving DecidableEq

/-- `GitRepo::has_workdir`. -/
def GitRepo.has_workdir (r : GitRepo) (path : GitPath) : Bool :=
  decide (r.workdir = path)

/-- `GitRepo::has_path`: the query starts with the original path or with
one of the extra paths. -/
def GitRepo.has_path (r : GitRepo) (path : GitPath) : Bool :=
  decide (r.original_path <+: path) || r.extra_paths.any (fun e => decide (e <+: path))

/-- `GitRepo::get_status` with the interior-mutability cache made
explicit: returns the answer and the updated repository state.  On a cache
miss the scan result is turned into a status index by `repo_to_statuses`
and stored unconditionally. -/
def GitRepo.get_status (r : GitRepo) (index : GitPath) (prefix_lookup : Bool) :
    Git × GitRepo :=
  match r.statusCache with
  | some cached_statuses => (cached_statuses.status index prefix_lookup, r)
  | none =>
      let new_statuses := repo_to_statuses r.scan r.workdir
      (new_statuses.status index prefix_lookup,
       { r with statusCache := some new_statuses })

/-- `GitRepo::discover`: discovery is the abstract capability `disc`; on
success the repository starts with empty caches and no extra paths, on
failure the probed path itself is the error payload. -/
def GitRepo.discover (disc : GitFlags → GitPath → Option DiscResult)
    (path : GitPath) (flags : GitFlags) : Except GitPath GitRepo :=
  match disc flags path with
  | some d =>
      Except.ok
        { scan := d.scan, submoduleScan := d.submodules, statusCache := none,
          submoduleCache := none, workdir := d.workdir, original_path := path,
          extra_paths := [] }
  | none => Except.error path

/-- The inner helper `check_submodule_paths` of `GitRepo::has_in_submodule`:
make the query relative to the original path or to an extra path, then
test whether the relative path starts with any cached submodule path. -/
def check_submodule_paths (paths : List GitPath) (path : GitPath)
    (extra_paths : List GitPath) (original_path : GitPath) : Bool :=
  (match stripPfx path original_path with
   | some relative_path => paths.any (fun p => decide (p <+: relative_path))
   | none => false)
  || extra_paths.any (fun extra_path =>
      match stripPfx path extra_path with
      | some relative_path => paths.any (fun p => decide (p <+: relative_path))
      | none => false)

/-- `GitRepo::has_in_submodule` with the lazy submodule cache made
explicit: on a cache miss the submodule scan result is stored (success or
error alike); an error answers false. -/
def GitRepo.has_in_submodule (r : GitRepo) (path : GitPath) : Bool × GitRepo :=
  match r.submoduleCache with
  | some (Except.ok paths) =>
      (check_submodule_paths paths path r.extra_paths r.original_path, r)
  | some (Except.error _) => (false, r)
  | none =>
      let res := r.submoduleScan
      let r2 := { r with submoduleCache := some res }
      match res with
      | Except.ok paths =>
          (check_submodule_paths paths path r2.extra_paths r2.original_path, r2)
      | Except.error _ => (false, r2)

/-- `GitCache`: the discovered repositories and the confirmed misses. -/
structure GitCache where
  repos : List GitRepo
  misses : List GitPath
deriving DecidableEq

/-- `GitCache::has_anything_for`. -/
def GitCache.has_anything_for (c : GitCache) (index : GitPath) : Bool :=
  c.repos.any (fun e => e.has_path index)

/-- `GitCache::get`: answer from the first repository whose `has_path`
covers the query, defaulting when none does. -/
def GitCache.get (c : GitCache) (index : GitPath) (prefix_lookup : Bool) : Git :=
  match c.repos.find? (fun repo => repo.has_path index) with
  | some repo => (repo.get_status index prefix_lookup).1
  | none => Git.default

/-- `GitCache::has_in_submodule`. -/
def GitCache.has_in_submodule (c : GitCache) (path : GitPath) : Bool :=
  match c.repos.find? (fun repo => repo.has_path path) with
  | some repo => (repo.has_in_submodule path).1
  | none => false

/-- The `iter_mut().find` + push logic of `from_iter` on a successful
discovery: append the new original path to the extra paths of the first
repository with the same working directory, or push the new repository at
the end when none matches. -/
def addExtraOrPush : List GitRepo → GitRepo → List GitRepo
  | [], r => [r]
  | e :: rest, r =>
      if e.has_workdir r.workdir then
        { e with extra_paths := e.extra_paths ++ [r.original_path] } :: rest
      else e :: addExtraOrPush rest r

/-- The body of the `for path in iter` loop of `from_iter`: skip paths
already recorded as misses (exact membership) or already covered by a
tracked repository; otherwise discover with FROM_ENV flags and either
dedup by working directory or record a miss. -/
def fromIterStep (disc : GitFlags → GitPath → Option DiscResult)
    (git : GitCache) (path : GitPath) : GitCache :=
  if decide (path ∈ git.misses) then git
  else if git.repos.any (fun e => e.has_path path) then git
  else
    match GitRepo.discover disc path GitFlags.fromEnv with
    | Except.ok r => { git with repos := addExtraOrPush git.repos r }
    | Except.error miss => { git with misses := git.misses ++ [miss] }

/-- `GitCache::from_iter`: optionally seed from the GIT_DIR environment
override (NO_SEARCH | NO_DOTGIT flags), then fold the loop body over the
input paths in order. -/
def GitCache.from_iter (disc : GitFlags → GitPath → Option DiscResult)
    (gitDirEnvVar : Option GitPath) (paths : List GitPath) : GitCache :=
  let init : GitCache :=
    match gitDirEnvVar with
    | some path =>
        match GitRepo.discover disc path GitFlags.noSearchNoDotgit with
        | Except.ok repo => { repos := [repo], misses := [] }
        | Except.error miss => { repos := [], misses := [miss] }
    | none => { repos := [], misses := [] }
  paths.foldl (fromIterStep disc) init

/-- The distinguished error codes of `repo.head()` in `current_branch`. -/
inductive HeadError where
  | unbornBranch
  | notFound
  | other
deriving DecidableEq

/-- A Rust string at the byte level: its UTF-8 byte sequence.  The source
measures the branch name with `len()` (bytes) and slices `[..8]` (bytes),
so the embedding keeps the byte representation. -/
abbrev ByteStr := List Nat

/-- Rust `str::is_char_boundary`: index 0, the whole length, or an index
inside the string whose byte is not a UTF-8 continuation byte (below 0x80
or at least 0xC0). -/
def is_char_boundary (s : ByteStr) (i : Nat) : Bool :=
  decide (i = 0) || decide (i = s.length)
    || (decide (i < s.length)
        && (decide (s.getD i 0 < 0x80) || decide (0xC0 ≤ s.getD i 0)))

/-- The number of characters of a UTF-8 byte string: its non-continuation
bytes.  Used only to state claim C9, whose wording counts characters. -/
def utf8CharCount (s : ByteStr) : Nat :=
  (s.filter (fun b => decide (b < 0x80) || decide (0xC0 ≤ b))).length

/-- The result of `repo.head()` followed by `shorthand()`: either a head
with an optional shorthand name (as its UTF-8 bytes), or an error. -/
inductive HeadResult where
  | ok (shorthand : Option ByteStr)
  | err (e : HeadError)
deriving DecidableEq

/-- `current_branch`: unborn-branch and not-found errors mean "no branch",
other errors are logged and also answer none; a resolved shorthand longer
than 10 bytes is truncated to its first 8 bytes plus the two-byte marker
`..` (bytes 0x2E 0x2E).  The byte slice `[..8]` panics when byte index 8
is not a character boundary; the panic is the `error` result. -/
def current_branch (head : HeadResult) : Except Unit (Option ByteStr) :=
  match head with
  | HeadResult.err HeadError.unbornBranch => Except.ok none
  | HeadResult.err HeadError.notFound => Except.ok none
  | HeadResult.err HeadError.other => Except.ok none
  | HeadResult.ok none => Except.ok none
  | HeadResult.ok (some s) =>
      let branch_name := s
      if branch_name.length > 10 then
        if is_char_boundary branch_name 8 then
          Except.ok (some (branch_name.take 8 ++ [0x2E, 0x2E]))
        else Except.error ()
      else Except.ok (some branch_name)

/-- The UTF-8 bytes of a branch name of six two-byte characters (six
times U+03B1): 6 characters, 12 bytes. -/
def alphaName : ByteStr :=
  [0xCE, 0xB1, 0xCE, 0xB1, 0xCE, 0xB1, 0xCE, 0xB1, 0xCE, 0xB1, 0xCE, 0xB1]

/-- The UTF-8 bytes of the 12-byte ASCII branch name abcdefghijkl. -/
def c9name : ByteStr :=
  [0x61, 0x62, 0x63, 0x64, 0x65, 0x66, 0x67, 0x68, 0x69, 0x6A, 0x6B, 0x6C]

/-- A 12-byte branch name whose byte index 8 falls inside a two-byte
character, so the truncating byte slice panics. -/
def c9panicName : ByteStr :=
  [0x61, 0x61, 0x61, 0x61, 0x61, 0x61, 0x61, 0xCE, 0xB1, 0x61, 0x61, 0x61]

/-- The tracked repository of the C1 scenario: working directory `/repo`,
one scanned entry `a.txt` with `WT_MODIFIED`, caches unpopulated. -/
def c1repo : GitRepo :=
  { scan := Except.ok [(["a.txt"], Status.WT_MODIFIED)], submoduleScan := Except.ok [],
    statusCache := none, submoduleCache := none, workdir := ["repo"],
    original_path := ["repo"], extra_paths := [] }

/-- The cache of the C1 scenario: a single tracked repository. -/
def c1cache : GitCache := { repos := [c1repo], misses := [] }

/-- Discovery capability where both `/repo` and `/repo/sub` resolve to
working directory `/repo`. -/
def disc4 : GitFlags → GitPath → Option DiscResult := fun _ p =>
  if p = ["repo"] ∨ p = ["repo", "sub"] then
    some ⟨["repo"], Except.ok [], Except.ok []⟩
  else none

/-- Discovery capability where both `/repo/sub1` and `/repo/sub2` resolve
to working directory `/repo`. -/
def disc4w : GitFlags → GitPath → Option DiscResult := fun _ p =>
  if p = ["repo", "sub1"] ∨ p = ["repo", "sub2"] then
    some ⟨["repo"], Except.ok [], Except.ok []⟩
  else none

/-- Discovery capability with a repository at `/a/b` nested inside a
distinct repository at `/a`. -/
def disc7 : GitFlags → GitPath → Option DiscResult := fun _ p =>
  if p = ["a", "b"] then some ⟨["a", "b"], Except.ok [], Except.ok []⟩
  else if p = ["a"] then some ⟨["a"], Except.ok [], Except.ok []⟩
  else none

/-- A tracked repository whose status scan fails. -/
def r6 : GitRepo :=
  { scan := Except.error (), submoduleScan := Except.error (),
    statusCache := none, submoduleCache := none, workdir := ["w"],
    original_path := ["w"], extra_paths := [] }

/-- A tracked repository at `/a` with one cached submodule at relative
path `m`. -/
def r8 : GitRepo :=
  { scan := Except.ok [], submoduleScan := Except.ok [["m"]],
    statusCache := none, submoduleCache := some (Except.ok [["m"]]),
    workdir := ["a"], original_path := ["a"], extra_paths := [] }

/-- A status index whose only entry marks directory `/r/d` as ignored. -/
def g2w : GitStatuses := ⟨[(["r", "d"], Status.IGNORED)]⟩

/-- The mixed flag set IGNORED | CONFLICTED. -/
def c10fl : Status := { Status.empty with ignored := true, conflicted := true }

/-- Fieldwise union is the identity on the empty flag set. -/
theorem Status.empty_union (b : Status) : Status.empty.union b = b := rfl

/-- A flag projection distributes over the status fold: the flag holds of
the folded set iff it holds of the accumulator or of some list element. -/
theorem foldl_union_flag (f : Status → Bool)
    (hf : ∀ a b : Status, f (a.union b) = (f a || f b)) :
    ∀ (l : List (GitPath × Status)) (acc : Status),
      f (l.foldl (fun a b => a.union b.2) acc) = (f acc || l.any (fun e => f e.2))
  | [], acc => by simp
  | e :: t, acc => by
      simp only [List.foldl_cons, List.any_cons]
      rw [foldl_union_flag f hf t, hf, Bool.or_assoc]

/-- A flag is false on the status fold over a list on which it is
everywhere false. -/
theorem fold_flag_false (f : Status → Bool)
    (hf : ∀ a b : Status, f (a.union b) = (f a || f b))
    (hempty : f Status.empty = false) (l : List (GitPath × Status))
    (h : ∀ e ∈ l, f e.2 = false) :
    f (l.foldl (fun a b => a.union b.2) Status.empty) = false := by
  rw [foldl_union_flag f hf, hempty, Bool.false_or]
  exact List.any_eq_false.mpr (fun e he => by simp [h e he])

/-- A flag is true on the status fold over a list containing an element
on which it is true. -/
theorem fold_flag_true (f : Status → Bool)
    (hf : ∀ a b : Status, f (a.union b) = (f a || f b))
    (l : List (GitPath × Status)) (h : ∃ e ∈ l, f e.2 = true) :
    f (l.foldl (fun a b => a.union b.2) Status.empty) = true := by
  rw [foldl_union_flag f hf]
  rcases h with ⟨e, he, hfe⟩
  have : l.any (fun e => f e.2) = true := List.any_eq_true.mpr ⟨e, he, hfe⟩
  rw [this, Bool.or_true]

/-- The unstaged reducer yields Ignored on a flag set with the IGNORED
flag and none of the working-tree flags. -/
theorem wts_eq_ignored_of (s : Status) (h1 : s.wt_new = false)
    (h2 : s.wt_modified = false) (h3 : s.wt_deleted = false)
    (h4 : s.wt_renamed = false) (h5 : s.wt_typechange = false)
    (h6 : s.ignored = true) : working_tree_status s = GitStatus.Ignored := by
  simp [working_tree_status, h1, h2, h3, h4, h5, h6]

/-- The unstaged reducer never yields Ignored on a flag set without the
IGNORED flag. -/
theorem wts_ne_ignored_of (s : Status) (h : s.ignored = false) :
    working_tree_status s ≠ GitStatus.Ignored := by
  unfold working_tree_status
  repeat' split
  all_goals simp_all

/-- The unstaged component of a file query is the unstaged reduction of
the fold over the matching entries. -/
theorem file_status_unstaged (g : GitStatuses) (x : GitPath) :
    (g.file_status x).unstaged
      = working_tree_status ((g.statuses.filter (fileMatches (reorient x))).foldl
          (fun a b => a.union b.2) Status.empty) := rfl

/-- The unstaged component of a directory query is the unstaged reduction
of the fold over the matching entries. -/
theorem dir_status_unstaged (g : GitStatuses) (x : GitPath) :
    (g.dir_status x).unstaged
      = working_tree_status ((g.statuses.filter (dirMatches (reorient x))).foldl
          (fun a b => a.union b.2) Status.empty) := rfl

/-- C1: for a cache whose single tracked repository has working directory
`/repo` and whose status index holds exactly one scanned entry
(`/repo/a.txt`, WT_MODIFIED), `get("/repo/a.txt", false)` returns
(NotModified, Modified), `get("/repo", true)` returns
(NotModified, Modified), and `get("/repo/b.txt", false)` returns
(NotModified, NotModified). -/
theorem c1_single_entry_scenario :
    c1cache.get ["repo", "a.txt"] false
      = ⟨GitStatus.NotModified, GitStatus.Modified⟩ ∧
    c1cache.get ["repo"] true = ⟨GitStatus.NotModified, GitStatus.Modified⟩ ∧
    c1cache.get ["repo", "b.txt"] false
      = ⟨GitStatus.NotModified, GitStatus.NotModified⟩ := by
  decide

/-- C3: the unstaged reducer returns the first matching case in the order
New, Modified, Deleted, Renamed, TypeChange, Ignored, Conflicted, else
NotModified; the staged reducer returns the first matching case in the
order New, Modified, Deleted, Renamed, TypeChange, else NotModified; the
staged reducer never returns Ignored or Conflicted; and a flag set with
both WT_NEW and WT_MODIFIED reduces to unstaged New. -/
theorem c3_status_mapper_waterfall :
    (∀ s : Status, s.wt_new = true → working_tree_status s = GitStatus.New) ∧
    (∀ s : Status, s.wt_new = false → s.wt_modified = true →
      working_tree_status s = GitStatus.Modified) ∧
    (∀ s : Status, s.wt_new = false → s.wt_modified = false →
      s.wt_deleted = true → working_tree_status s = GitStatus.Deleted) ∧
    (∀ s : Status, s.wt_new = false → s.wt_modified = false →
      s.wt_deleted = false → s.wt_renamed = true →
      working_tree_status s = GitStatus.Renamed) ∧
    (∀ s : Status, s.wt_new = false → s.wt_modified = false →
      s.wt_deleted = false → s.wt_renamed = false → s.wt_typechange = true →
      working_tree_status s = GitStatus.TypeChange) ∧
    (∀ s : Status, s.wt_new = false → s.wt_modified = false →
      s.wt_deleted = false → s.wt_renamed = false → s.wt_typechange = false →
      s.ignored = true → working_tree_status s = GitStatus.Ignored) ∧
    (∀ s : Status, s.wt_new = false → s.wt_modified = false →
      s.wt_deleted = false → s.wt_renamed = false → s.wt_typechange = false →
      s.ignored = false → s.conflicted = true →
      working_tree_status s = GitStatus.Conflicted) ∧
    (∀ s : Status, s.wt_new = false → s.wt_modified = false →
      s.wt_deleted = false → s.wt_renamed = false → s.wt_typechange = false →
      s.ignored = false → s.conflicted = false →
      working_tree_status s = GitStatus.NotModified) ∧
    (∀ s : Status, s.index_new = true → index_status s = GitStatus.New) ∧
    (∀ s : Status, s.index_new = false → s.index_modified = true →
      index_status s = GitStatus.Modified) ∧
    (∀ s : Status, s.index_new = false → s.index_modified = false →
      s.index_deleted = true → index_status s = GitStatus.Deleted) ∧
    (∀ s : Status, s.index_new = false → s.index_modified = false →
      s.index_deleted = false → s.index_renamed = true →
      index_status s = GitStatus.Renamed) ∧
    (∀ s : Status, s.index_new = false → s.index_modified = false →
      s.index_deleted = false → s.index_renamed = false →
      s.index_typechange = true → index_status s = GitStatus.TypeChange) ∧
    (∀ s : Status, s.index_new = false → s.index_modified = false →
      s.index_deleted = false → s.index_renamed = false →
      s.index_typechange = false → index_status s = GitStatus.NotModified) ∧
    (∀ s : Status, index_status s ≠ GitStatus.Ignored ∧
      index_status s ≠ GitStatus.Conflicted) ∧
    (∀ s : Status, s.wt_new = true → s.wt_modified = true →
      working_tree_status s = GitStatus.New) := by
  refine ⟨?_, ?_, ?_, ?_, ?_, ?_, ?_, ?_, ?_, ?_, ?_, ?_, ?_, ?_, ?_, ?_⟩
  · intro s h1; simp [working_tree_status, h1]
  · intro s h1 h2; simp [working_tree_status, h1, h2]
  · intro s h1 h2 h3; simp [working_tree_status, h1, h2, h3]
  · intro s h1 h2 h3 h4; simp [working_tree_status, h1, h2, h3, h4]
  · intro s h1 h2 h3 h4 h5; simp [working_tree_status, h1, h2, h3, h4, h5]
  · intro s h1 h2 h3 h4 h5 h6; simp [working_tree_status, h1, h2, h3, h4, h5, h6]
  · intro s h1 h2 h3 h4 h5 h6 h7
    simp [working_tree_status, h1, h2, h3, h4, h5, h6, h7]
  · intro s h1 h2 h3 h4 h5 h6 h7
    simp [working_tree_status, h1, h2, h3, h4, h5, h6, h7]
  · intro s h1; simp [index_status, h1]
  · intro s h1 h2; simp [index_status, h1, h2]
  · intro s h1 h2 h3; simp [index_status, h1, h2, h3]
  · intro s h1 h2 h3 h4; simp [index_status, h1, h2, h3, h4]
  · intro s h1 h2 h3 h4 h5; simp [index_status, h1, h2, h3, h4, h5]
  · intro s h1 h2 h3 h4 h5; simp [index_status, h1, h2, h3, h4, h5]
  · intro s
    constructor
    · unfold index_status; repeat' split
      all_goals simp
    · unfold index_status; repeat' split
      all_goals simp
  · intro s h1 _; simp [working_tree_status, h1]

/-- Witness for C3: a flag set with both WT_NEW and WT_MODIFIED reduces
to unstaged New. -/
theorem c3_witness :
    working_tree_status { Status.empty with wt_new := true, wt_modified := true }
      = GitStatus.New :=
  c3_status_mapper_waterfall.2.2.2.2.2.2.2.2.2.2.2.2.2.2.2
    { Status.empty with wt_new := true, wt_modified := true } rfl rfl

/-- Counterexample to C9: the branch name of six two-byte characters has
6 characters — at most 10, so the claim promises it back unchanged — yet
the program truncates it, since its byte length 12 exceeds 10: it returns
the first 8 bytes plus the marker, not the name. -/
theorem c9_counterexample :
    utf8CharCount alphaName = 6 ∧
    current_branch (HeadResult.ok (some alphaName)) ≠ Except.ok (some alphaName) ∧
    current_branch (HeadResult.ok (some alphaName))
      = Except.ok (some ([0xCE, 0xB1, 0xCE, 0xB1, 0xCE, 0xB1, 0xCE, 0xB1]
          ++ [0x2E, 0x2E])) := by
  decide

/-- C9 (amended): branch-name truncation counts and slices bytes.  A
resolved name longer than 10 bytes whose byte index 8 is a character
boundary is returned as its first 8 bytes followed by the two-byte
ellipsis marker; one whose byte index 8 is not a character boundary makes
the byte slice panic; a name of at most 10 bytes is returned unchanged. -/
theorem c9_byte_truncation :
    ∀ name : ByteStr,
      (name.length > 10 → is_char_boundary name 8 = true →
        current_branch (HeadResult.ok (some name))
          = Except.ok (some (name.take 8 ++ [0x2E, 0x2E]))) ∧
      (name.length > 10 → is_char_boundary name 8 = false →
        current_branch (HeadResult.ok (some name)) = Except.error ()) ∧
      (name.length ≤ 10 →
        current_branch (HeadResult.ok (some name)) = Except.ok (some name)) := by
  intro name
  refine ⟨?_, ?_, ?_⟩
  · intro h hb; simp [current_branch, h, hb]
  · intro h hb; simp [current_branch, h, hb]
  · intro h; simp [current_branch, Nat.not_lt.mpr h]

/-- Witness for C9 (amended): the 12-byte ASCII name is truncated to its
first 8 bytes plus the marker, and the name with byte 8 inside a
character panics. -/
theorem c9_byte_witness :
    current_branch (HeadResult.ok (some c9name))
      = Except.ok (some (c9name.take 8 ++ [0x2E, 0x2E])) ∧
    current_branch (HeadResult.ok (some c9panicName)) = Except.error () :=
  ⟨(c9_byte_truncation c9name).1 (by decide) (by decide),
   (c9_byte_truncation c9panicName).2.1 (by decide) (by decide)⟩

/-- C2: ignored status propagates downward only.  If the status index has
an entry marking directory D as exactly ignored, a file query for a child
of D with no entry of its own reports Ignored on the unstaged axis; a
directory query for an ancestor P of D does not report Ignored merely
because of D (formally: when the IGNORED flag occurs only in
exactly-ignored entries, and no such entry covers P, the unstaged answer
for P is not Ignored). -/
theorem c2_ignored_propagation :
    ∀ (g : GitStatuses) (D : GitPath) (child : String) (P : GitPath),
      ((D, Status.IGNORED) ∈ g.statuses →
        (∀ e ∈ g.statuses, e.1 ≠ D ++ [child]) →
        (g.file_status (D ++ [child])).unstaged = GitStatus.Ignored) ∧
      ((D, Status.IGNORED) ∈ g.statuses → P <+: D →
        (∀ e ∈ g.statuses, e.2.ignored = true → e.2 = Status.IGNORED) →
        (∀ e ∈ g.statuses, e.2 = Status.IGNORED → ¬ e.1 <+: P) →
        (g.dir_status P).unstaged ≠ GitStatus.Ignored) := by
  intro g D child P
  constructor
  · intro hD hNo
    rw [file_status_unstaged]
    have hall : ∀ e ∈ g.statuses.filter (fileMatches (reorient (D ++ [child]))),
        e.2 = Status.IGNORED := by
      intro e he
      rcases List.mem_filter.mp he with ⟨hmem, hmatch⟩
      by_cases hig : e.2 = Status.IGNORED
      · exact hig
      · unfold fileMatches at hmatch
        rw [if_neg hig] at hmatch
        exact absurd (of_decide_eq_true hmatch) (hNo e hmem)
    apply wts_eq_ignored_of
    · exact fold_flag_false (fun st => st.wt_new) (fun _ _ => rfl) rfl _
        (fun e he => by rw [hall e he]; rfl)
    · exact fold_flag_false (fun st => st.wt_modified) (fun _ _ => rfl) rfl _
        (fun e he => by rw [hall e he]; rfl)
    · exact fold_flag_false (fun st => st.wt_deleted) (fun _ _ => rfl) rfl _
        (fun e he => by rw [hall e he]; rfl)
    · exact fold_flag_false (fun st => st.wt_renamed) (fun _ _ => rfl) rfl _
        (fun e he => by rw [hall e he]; rfl)
    · exact fold_flag_false (fun st => st.wt_typechange) (fun _ _ => rfl) rfl _
        (fun e he => by rw [hall e he]; rfl)
    · apply fold_flag_true (fun st => st.ignored) (fun _ _ => rfl)
      refine ⟨(D, Status.IGNORED), ?_, rfl⟩
      refine List.mem_filter.mpr ⟨hD, ?_⟩
      unfold fileMatches
      rw [if_pos rfl]
      exact decide_eq_true ⟨[child], rfl⟩
  · intro _ _ h1 h2
    rw [dir_status_unstaged]
    apply wts_ne_ignored_of
    apply fold_flag_false (fun st => st.ignored) (fun _ _ => rfl) rfl
    intro e he
    rcases List.mem_filter.mp he with ⟨hmem, hmatch⟩
    by_cases hig : e.2 = Status.IGNORED
    · unfold dirMatches at hmatch
      rw [if_pos hig] at hmatch
      exact absurd (of_decide_eq_true hmatch) (h2 e hmem hig)
    · cases hii : e.2.ignored
      · rfl
      · exact absurd (h1 e hmem hii) hig

/-- Witness for C2: with the single entry marking `/r/d` ignored, the file
query for `/r/d/x` answers Ignored while the directory query for the
ancestor `/r` does not. -/
theorem c2_witness :
    (g2w.file_status ["r", "d", "x"]).unstaged = GitStatus.Ignored ∧
    (g2w.dir_status ["r"]).unstaged ≠ GitStatus.Ignored :=
  ⟨(c2_ignored_propagation g2w ["r", "d"] "x" ["r"]).1 (by decide) (by decide),
   (c2_ignored_propagation g2w ["r", "d"] "x" ["r"]).2 (by decide) (by decide)
     (by decide) (by decide)⟩

/-- C5: for a path covered by no tracked repository, `get` returns the
default (NotModified, NotModified) status for both lookup modes, and
`has_anything_for` is false. -/
theorem c5_unowned_default :
    ∀ (c : GitCache) (P : GitPath),
      (∀ r ∈ c.repos, r.has_path P = false) →
      (∀ l : Bool, c.get P l = Git.default) ∧ c.has_anything_for P = false := by
  intro c P h
  have hfind : c.repos.find? (fun repo => repo.has_path P) = none :=
    List.find?_eq_none.mpr (fun x hx => by simp [h x hx])
  refine ⟨fun l => ?_, ?_⟩
  · unfold GitCache.get
    rw [hfind]
  · unfold GitCache.has_anything_for
    exact List.any_eq_false.mpr (fun x hx => by simp [h x hx])

/-- Witness for C5: the C1 cache owns nothing outside `/repo`, so a query
for `/other` answers the default and `has_anything_for` is false. -/
theorem c5_witness :
    c1cache.get ["other"] false = Git.default ∧
    c1cache.has_anything_for ["other"] = false :=
  ⟨(c5_unowned_default c1cache ["other"] (by decide)).1 false,
   (c5_unowned_default c1cache ["other"] (by decide)).2⟩

/-- Counterexample to C6: for a repository whose status scan fails, the
first `get_status` call does cache a marker — the empty status index — so
subsequent queries answer from it instead of retrying the scan. -/
theorem c6_counterexample :
    r6.scan = Except.error () ∧ r6.statusCache = none ∧
    ((r6.get_status ["w", "f"] false).2).statusCache = some (GitStatuses.mk []) := by
  decide

/-- C6 (amended): when the status scan fails on the first `get_status`
call, the empty status index (not an error marker) is cached; the call
answers the default status, and every subsequent `get_status` query
answers the default from the cached empty index without retrying the
scan (the repository state no longer changes). -/
theorem c6_failed_scan_caches_empty :
    ∀ (r : GitRepo) (p : GitPath) (l : Bool),
      r.scan = Except.error () → r.statusCache = none →
      ((r.get_status p l).2.statusCache = some (GitStatuses.mk []) ∧
       (r.get_status p l).1 = Git.default ∧
       ∀ (p2 : GitPath) (l2 : Bool),
         (r.get_status p l).2.get_status p2 l2
           = (Git.default, (r.get_status p l).2)) := by
  intro r p l hscan hcache
  have hempty : ∀ (q : GitPath) (b : Bool), (GitStatuses.mk []).status q b = Git.default := by
    intro q b
    cases b <;> rfl
  have hgs : r.get_status p l
      = (Git.default, { r with statusCache := some (GitStatuses.mk []) }) := by
    unfold GitRepo.get_status
    rw [hcache]
    simp only [hscan, repo_to_statuses, hempty]
  refine ⟨by rw [hgs], by rw [hgs], ?_⟩
  intro p2 l2
  rw [hgs]
  unfold GitRepo.get_status
  simp only [hempty]

/-- Witness for C6 (amended): the failing repository r6 at a concrete
query. -/
theorem c6_witness :
    (r6.get_status ["w"] false).2.statusCache = some (GitStatuses.mk []) ∧
    (r6.get_status ["w"] false).1 = Git.default ∧
    (r6.get_status ["w"] false).2.get_status ["w", "q"] true
      = (Git.default, (r6.get_status ["w"] false).2) :=
  ⟨(c6_failed_scan_caches_empty r6 ["w"] false rfl rfl).1,
   (c6_failed_scan_caches_empty r6 ["w"] false rfl rfl).2.1,
   (c6_failed_scan_caches_empty r6 ["w"] false rfl rfl).2.2 ["w", "q"] true⟩

/-- Counterexample to C7: with a repository discovered at `/a/b` and a
second, distinct repository later discovered at `/a`, the query `/a/b/c`
is covered by the `has_path` of both tracked repositories, so "at most
one owner" fails for a cache built by construction. -/
theorem c7_counterexample :
    ¬ ((GitCache.from_iter disc7 none [["a", "b"], ["a"]]).repos.countP
        (fun r => r.has_path ["a", "b", "c"]) ≤ 1) := by
  decide

/-- C7 (amended): when no recognized path (original or extra) of one
tracked repository is a component-wise prefix of a recognized path of a
distinct tracked repository, at most one repository owns any query path,
and `get` answers from that owner.  In general `get` answers from the
first owner in construction order; nested repositories can produce two
owners, as the counterexample shows. -/
theorem c7_first_owner :
    ∀ (c : GitCache) (P : GitPath),
      (∀ r1 ∈ c.repos, ∀ r2 ∈ c.repos, ∀ q1 ∈ r1.original_path :: r1.extra_paths,
        ∀ q2 ∈ r2.original_path :: r2.extra_paths, q1 <+: q2 → r1 = r2) →
      ((∀ r1 ∈ c.repos, ∀ r2 ∈ c.repos,
          r1.has_path P = true → r2.has_path P = true → r1 = r2) ∧
       (∀ r ∈ c.repos, r.has_path P = true →
          ∀ l : Bool, c.get P l = (r.get_status P l).1)) := by
  intro c P H
  have hiff : ∀ r : GitRepo, r.has_path P = true ↔
      ∃ q ∈ r.original_path :: r.extra_paths, q <+: P := by
    intro r
    unfold GitRepo.has_path
    simp only [Bool.or_eq_true, decide_eq_true_eq, List.any_eq_true, List.mem_cons]
    constructor
    · rintro (h | ⟨e, he, hd⟩)
      · exact ⟨r.original_path, Or.inl rfl, h⟩
      · exact ⟨e, Or.inr he, hd⟩
    · rintro ⟨q, hq | hq, hpre⟩
      · subst hq; exact Or.inl hpre
      · exact Or.inr ⟨q, hq, hpre⟩
  have huniq : ∀ r1 ∈ c.repos, ∀ r2 ∈ c.repos,
      r1.has_path P = true → r2.has_path P = true → r1 = r2 := by
    intro r1 h1 r2 h2 hp1 hp2
    obtain ⟨q1, hq1, hq1P⟩ := (hiff r1).mp hp1
    obtain ⟨q2, hq2, hq2P⟩ := (hiff r2).mp hp2
    rcases List.prefix_or_prefix_of_prefix hq1P hq2P with h | h
    · exact H r1 h1 r2 h2 q1 hq1 q2 hq2 h
    · exact (H r2 h2 r1 h1 q2 hq2 q1 hq1 h).symm
  refine ⟨huniq, ?_⟩
  intro r hr hp l
  unfold GitCache.get
  cases hfind : c.repos.find? (fun repo => repo.has_path P) with
  | none =>
      exact absurd hp (by simpa using List.find?_eq_none.mp hfind r hr)
  | some r2 =>
      have hmem := List.mem_of_find?_eq_some hfind
      have hp2 := List.find?_some hfind
      rw [huniq r2 hmem r hr hp2 hp]

/-- Witness for C7 (amended): the single-repository C1 cache answers the
query `/repo/z` from its unique owner. -/
theorem c7_witness :
    c1cache.get ["repo", "z"] false = (c1repo.get_status ["repo", "z"] false).1 :=
  (c7_first_owner c1cache ["repo", "z"] (by decide)).2 c1repo (by decide)
    (by decide) false

/-- Counterexample to C4: the two distinct input paths `/repo` and
`/repo/sub` would both resolve (via disc4) to working directory `/repo`,
yet after construction the single tracked repository has empty
extra_paths — the second path was skipped by the has_path check, so
extra_paths does not contain it as the claim requires. -/
theorem c4_counterexample :
    (["repo"] : GitPath) ≠ ["repo", "sub"] ∧
    disc4 GitFlags.fromEnv ["repo"] = some ⟨["repo"], Except.ok [], Except.ok []⟩ ∧
    disc4 GitFlags.fromEnv ["repo", "sub"]
      = some ⟨["repo"], Except.ok [], Except.ok []⟩ ∧
    (GitCache.from_iter disc4 none [["repo"], ["repo", "sub"]]).repos.map
      (fun r => r.extra_paths) = [[]] := by
  decide

/-- C4 (amended): when two distinct input paths are processed in order,
discovery resolves each to the same working directory, and the second
path is not covered by the first (not a component-wise extension of it),
the constructed cache holds exactly one tracked repository, with the
first path as its primary path, the second in its extra_paths, and
`has_path` holding for both.  (When the second path is nested under the
first it is skipped instead: exactly one repository and both `has_path`
still hold, but extra_paths stays empty, as the counterexample shows.) -/
theorem c4_dedup :
    ∀ (disc : GitFlags → GitPath → Option DiscResult) (p1 p2 : GitPath)
      (d1 d2 : DiscResult),
      p1 ≠ p2 →
      disc GitFlags.fromEnv p1 = some d1 →
      disc GitFlags.fromEnv p2 = some d2 →
      d1.workdir = d2.workdir →
      ¬ p1 <+: p2 →
      ∃ r : GitRepo,
        (GitCache.from_iter disc none [p1, p2]).repos = [r] ∧
        r.original_path = p1 ∧ r.extra_paths = [p2] ∧
        r.has_path p1 = true ∧ r.has_path p2 = true := by
  intro disc p1 p2 d1 d2 hne h1 h2 hw hnp
  refine ⟨{ scan := d1.scan, submoduleScan := d1.submodules, statusCache := none,
            submoduleCache := none, workdir := d1.workdir, original_path := p1,
            extra_paths := [p2] }, ?_, rfl, rfl, ?_, ?_⟩
  · show (GitCache.from_iter disc none [p1, p2]).repos = _
    have e1 : fromIterStep disc { repos := [], misses := [] } p1
        = { repos := [{ scan := d1.scan, submoduleScan := d1.submodules,
                        statusCache := none, submoduleCache := none,
                        workdir := d1.workdir, original_path := p1,
                        extra_paths := [] }], misses := [] } := by
      unfold fromIterStep
      simp [GitRepo.discover, h1, addExtraOrPush]
    have e2 : fromIterStep disc
        { repos := [{ scan := d1.scan, submoduleScan := d1.submodules,
                      statusCache := none, submoduleCache := none,
                      workdir := d1.workdir, original_path := p1,
                      extra_paths := [] }], misses := [] } p2
        = { repos := [{ scan := d1.scan, submoduleScan := d1.submodules,
                        statusCache := none, submoduleCache := none,
                        workdir := d1.workdir, original_path := p1,
                        extra_paths := [p2] }], misses := [] } := by
      unfold fromIterStep
      simp [GitRepo.has_path, hnp, GitRepo.discover, h2, addExtraOrPush,
        GitRepo.has_workdir, hw]
    show (List.foldl (fromIterStep disc) { repos := [], misses := [] } [p1, p2]).repos = _
    rw [List.foldl_cons, e1, List.foldl_cons, e2, List.foldl_nil]
  · simp [GitRepo.has_path]
  · simp [GitRepo.has_path]

/-- Witness for C4 (amended): `/repo/sub1` and `/repo/sub2` both resolve
to working directory `/repo` and neither extends the other. -/
theorem c4_witness :
    ∃ r : GitRepo,
      (GitCache.from_iter disc4w none [["repo", "sub1"], ["repo", "sub2"]]).repos
        = [r] ∧
      r.original_path = ["repo", "sub1"] ∧ r.extra_paths = [["repo", "sub2"]] ∧
      r.has_path ["repo", "sub1"] = true ∧ r.has_path ["repo", "sub2"] = true :=
  c4_dedup disc4w ["repo", "sub1"] ["repo", "sub2"]
    ⟨["repo"], Except.ok [], Except.ok []⟩ ⟨["repo"], Except.ok [], Except.ok []⟩
    (by decide) (by decide) (by decide) rfl (by decide)

/-- C8: for a repository whose cached submodule list contains relative
path S, a query path that lies strictly inside S after stripping the
primary path or an extra path it falls under makes `has_in_submodule`
true, while a query path whose stripped relative form (under every base
that strips) is inside no registered submodule path makes it false. -/
theorem c8_submodule_containment :
    ∀ (r : GitRepo) (subs : List GitPath) (S p q : GitPath) (c : String)
      (rest : GitPath),
      r.submoduleCache = some (Except.ok subs) → S ∈ subs →
      ((stripPfx p r.original_path = some (S ++ c :: rest) ∨
        ∃ e ∈ r.extra_paths, stripPfx p e = some (S ++ c :: rest)) →
        (r.has_in_submodule p).1 = true) ∧
      (((∀ rel, stripPfx q r.original_path = some rel → ∀ s ∈ subs, ¬ s <+: rel) ∧
        (∀ e ∈ r.extra_paths, ∀ rel, stripPfx q e = some rel →
          ∀ s ∈ subs, ¬ s <+: rel)) →
        (r.has_in_submodule q).1 = false) := by
  intro r subs S p q c rest hcache hS
  have hred : ∀ x : GitPath, (r.has_in_submodule x).1
      = check_submodule_paths subs x r.extra_paths r.original_path := by
    intro x
    unfold GitRepo.has_in_submodule
    rw [hcache]
  constructor
  · intro hp
    rw [hred]
    unfold check_submodule_paths
    rcases hp with h | ⟨e, he, hstrip⟩
    · simp only [h]
      have hany : subs.any (fun sp => decide (sp <+: S ++ c :: rest)) = true :=
        List.any_eq_true.mpr ⟨S, hS, decide_eq_true ⟨c :: rest, rfl⟩⟩
      rw [hany, Bool.true_or]
    · have hany2 : r.extra_paths.any (fun extra_path =>
          match stripPfx p extra_path with
          | some relative_path => subs.any (fun sp => decide (sp <+: relative_path))
          | none => false) = true := by
        refine List.any_eq_true.mpr ⟨e, he, ?_⟩
        simp only [hstrip]
        exact List.any_eq_true.mpr ⟨S, hS, decide_eq_true ⟨c :: rest, rfl⟩⟩
      rw [hany2, Bool.or_true]
  · rintro ⟨hq1, hq2⟩
    rw [hred]
    unfold check_submodule_paths
    have h2 : r.extra_paths.any (fun extra_path =>
        match stripPfx q extra_path with
        | some relative_path => subs.any (fun sp => decide (sp <+: relative_path))
        | none => false) = false := by
      refine List.any_eq_false.mpr fun e he => ?_
      cases hsp : stripPfx q e with
      | none => simp
      | some rel =>
          intro hx
          rcases List.any_eq_true.mp hx with ⟨s, hs, hd⟩
          exact hq2 e he rel hsp s hs (of_decide_eq_true hd)
    rw [h2, Bool.or_false]
    cases hsp : stripPfx q r.original_path with
    | none => rfl
    | some rel =>
        refine List.any_eq_false.mpr fun s hs => ?_
        intro hd
        exact hq1 rel hsp s hs (of_decide_eq_true hd)

/-- Witness for C8: in r8 (submodule at relative path `m` under `/a`) the
query `/a/m/x` is inside the submodule and `/a/n` is not. -/
theorem c8_witness :
    (r8.has_in_submodule ["a", "m", "x"]).1 = true ∧
    (r8.has_in_submodule ["a", "n"]).1 = false :=
  ⟨(c8_submodule_containment r8 [["m"]] ["m"] ["a", "m", "x"] ["a", "n"] "x" []
      rfl (by decide)).1 (Or.inl rfl),
   (c8_submodule_containment r8 [["m"]] ["m"] ["a", "m", "x"] ["a", "n"] "x" []
      rfl (by decide)).2
     ⟨fun rel h s hs => by
        have hrel := Option.some.inj h
        rw [List.mem_singleton] at hs
        subst hs
        rw [← hrel]
        decide,
      fun e he => absurd he (List.not_mem_nil e)⟩⟩

/-- C10: the ancestor-inheritance matching rule applies only to entries
whose flag set equals exactly IGNORED.  For a single-entry index whose
entry carries IGNORED together with another flag, `file_status` matches
it only by exact path equality and `dir_status` only when the entry is a
descendant of the query; an exactly-IGNORED entry is matched in both by
the ancestor rule. -/
theorem c10_ignored_exact_vs_mixed :
    ∀ (q path : GitPath) (fl : Status),
      fl.ignored = true → fl ≠ Status.IGNORED →
      (((q = path) → (GitStatuses.mk [(q, fl)]).file_status path
          = ⟨index_status fl, working_tree_status fl⟩) ∧
       ((q ≠ path) → (GitStatuses.mk [(q, fl)]).file_status path = Git.default) ∧
       ((path <+: q) → (GitStatuses.mk [(q, fl)]).dir_status path
          = ⟨index_status fl, working_tree_status fl⟩) ∧
       ((¬ path <+: q) → (GitStatuses.mk [(q, fl)]).dir_status path = Git.default)) ∧
      (((q <+: path) → (GitStatuses.mk [(q, Status.IGNORED)]).file_status path
          = ⟨GitStatus.NotModified, GitStatus.Ignored⟩) ∧
       ((¬ q <+: path) → (GitStatuses.mk [(q, Status.IGNORED)]).file_status path
          = Git.default) ∧
       ((q <+: path) → (GitStatuses.mk [(q, Status.IGNORED)]).dir_status path
          = ⟨GitStatus.NotModified, GitStatus.Ignored⟩) ∧
       ((¬ q <+: path) → (GitStatuses.mk [(q, Status.IGNORED)]).dir_status path
          = Git.default)) := by
  intro q path fl _ hfne
  refine ⟨⟨?_, ?_, ?_, ?_⟩, ⟨?_, ?_, ?_, ?_⟩⟩
  · intro h
    subst h
    simp [GitStatuses.file_status, reorient, fileMatches, hfne, List.filter,
      Status.empty_union]
  · intro h
    simp [GitStatuses.file_status, reorient, fileMatches, hfne, List.filter, h,
      Git.default]
    exact ⟨rfl, rfl⟩
  · intro h
    simp [GitStatuses.dir_status, reorient, dirMatches, hfne, List.filter, h,
      Status.empty_union]
  · intro h
    simp [GitStatuses.dir_status, reorient, dirMatches, hfne, List.filter, h,
      Git.default]
    exact ⟨rfl, rfl⟩
  · intro h
    simp [GitStatuses.file_status, reorient, fileMatches, List.filter, h,
      Status.empty_union]
    exact ⟨rfl, rfl⟩
  · intro h
    simp [GitStatuses.file_status, reorient, fileMatches, List.filter, h,
      Git.default]
    exact ⟨rfl, rfl⟩
  · intro h
    simp [GitStatuses.dir_status, reorient, dirMatches, List.filter, h,
      Status.empty_union]
    exact ⟨rfl, rfl⟩
  · intro h
    simp [GitStatuses.dir_status, reorient, dirMatches, List.filter, h,
      Git.default]
    exact ⟨rfl, rfl⟩

/-- Witness for C10: the mixed entry IGNORED | CONFLICTED on `/d` is not
inherited by `/d/x`, while an exactly-IGNORED entry on `/d` is. -/
theorem c10_witness :
    (GitStatuses.mk [(["d"], c10fl)]).file_status ["d", "x"] = Git.default ∧
    (GitStatuses.mk [(["d"], Status.IGNORED)]).file_status ["d", "x"]
      = ⟨GitStatus.NotModified, GitStatus.Ignored⟩ :=
  ⟨((c10_ignored_exact_vs_mixed ["d"] ["d", "x"] c10fl rfl (by decide)).1).2.1
      (by decide),
   ((c10_ignored_exact_vs_mixed ["d"] ["d", "x"] c10fl rfl (by decide)).2).1
      (by decide)⟩
